import Mathlib

/-!
Shallow embedding of the starknet-indexer event pipeline.

Source files embedded here:
- `src/indexers/myIndexer.indexer.ts` — event-selector constants, pool
  addresses, the three decoders, classification helpers, and the per-block
  `transform` loop (delivery, dedup check, persistence).
- `src/utils/eventSelectors.ts` (the `relayerApi` part) — `createHMACSignature`,
  `sendEventToRelayer` (retry loop), `validateRelayerVariables`.
- `lib/schema` (`src/unnamed/part_001`) — the `htlc_events` table shape, in
  particular the declared maximum length of the `event_id` column.

External collaborators (Node `crypto` HMAC, `fetch`, the drizzle storage
handle, wall-clock time) are modelled as explicit parameters/oracles passed
to the embedded functions; everything else is translated directly from the
TypeScript source.
-/

namespace StarknetIndexer

/-! ## Constants (myIndexer.indexer.ts lines 16-26) -/

def DEPOSIT_EVENT_KEY : String :=
  "0x009149d2123147c5f43d258257fef0b7b969db78269369ebcf5ebb9eef8592f2"

def HTLC_CREATED_EVENT_KEY : String :=
  "0x001548a4d5508e503975e8ef480a1b0f2b55fe480799be7764b93828870abae16"

def WITHDRAWAL_EVENT_KEY : String :=
  "0x002eed7e29b3502a726faf503ac4316b7101f3da813654e8df02c13449e03da8"

/-- JS `toLowerCase()` on the ASCII strings (hex addresses) this pipeline
compares. -/
def jsCharToLower (c : Char) : Char :=
  if 'A' ≤ c ∧ c ≤ 'Z' then Char.ofNat (c.toNat + 32) else c

def jsToLower (s : String) : String := ⟨s.data.map jsCharToLower⟩

def FAST_POOL_ADDRESS : String :=
  jsToLower "0x01749627bb08da4f8c3df6c55045ac429abdceada025262d4c51430d643db84e"

def STANDARD_POOL_ADDRESS : String :=
  jsToLower "0x05cf3a281b3932cb4fec5648558c05fe796bd2d1b6e75554e3306c4849b82ed8"

/-! ## JavaScript numeric coercions

The decoders call `Number(x)` and `BigInt(x)` on entries of the raw event's
`data` array (hex/decimal felt strings coming from the stream) which may be
`undefined` when the array is too short.  `BigInt(undefined)` and
`BigInt(<non-integer string>)` throw (caught by the decoder, which then
returns `null`); `Number` never throws and yields `NaN` on unparsable input.
We model a JS number as either `NaN` or an integer: the felt strings this
stream produces are integer-formatted (decimal or `0x`/`0b`/`0o` prefixed),
which is exactly the common domain on which `Number` and `BigInt` agree. -/

def hexDigitVal (c : Char) : Option Nat :=
  if '0' ≤ c ∧ c ≤ '9' then some (c.toNat - '0'.toNat)
  else if 'a' ≤ c ∧ c ≤ 'f' then some (c.toNat - 'a'.toNat + 10)
  else if 'A' ≤ c ∧ c ≤ 'F' then some (c.toNat - 'A'.toNat + 10)
  else none

def decDigitVal (c : Char) : Option Nat :=
  if '0' ≤ c ∧ c ≤ '9' then some (c.toNat - '0'.toNat) else none

def binDigitVal (c : Char) : Option Nat :=
  if c = '0' then some 0 else if c = '1' then some 1 else none

def octDigitVal (c : Char) : Option Nat :=
  if '0' ≤ c ∧ c ≤ '7' then some (c.toNat - '0'.toNat) else none

def parseDigits (digitVal : Char → Option Nat) (base : Nat) (cs : List Char) :
    Option Nat :=
  cs.foldl (fun acc c => acc.bind fun n => (digitVal c).map fun d => n * base + d)
    (some 0)

def parseRadix (digitVal : Char → Option Nat) (base : Nat) (cs : List Char) :
    Option Int :=
  if cs.isEmpty then none else (parseDigits digitVal base cs).map Int.ofNat

/-- Leading/trailing whitespace removal on the character list (the
`BigInt`/`Number` string conversions trim their input first). -/
def trimChars (cs : List Char) : List Char :=
  ((cs.dropWhile Char.isWhitespace).reverse.dropWhile Char.isWhitespace).reverse

/-- Does the character list start with `'0'` followed by one of the two radix
letters? -/
def hasRadixMark (cs : List Char) (lo hi : Char) : Bool :=
  match cs with
  | '0' :: c :: _ => c == lo || c == hi
  | _ => false

/-- `BigInt(s)` on a string: trimmed; empty means `0`; `0x`/`0b`/`0o` radix
prefixes (no sign allowed with a prefix); otherwise an optional sign followed
by decimal digits; anything else throws, modelled as `none`. -/
def jsBigIntOfString (s : String) : Option Int :=
  let cs := trimChars s.data
  if cs.isEmpty then some 0
  else if hasRadixMark cs 'x' 'X' then
    parseRadix hexDigitVal 16 (cs.drop 2)
  else if hasRadixMark cs 'b' 'B' then
    parseRadix binDigitVal 2 (cs.drop 2)
  else if hasRadixMark cs 'o' 'O' then
    parseRadix octDigitVal 8 (cs.drop 2)
  else
    match cs with
    | '-' :: ds => (parseRadix decDigitVal 10 ds).map Int.neg
    | '+' :: ds => parseRadix decDigitVal 10 ds
    | ds => parseRadix decDigitVal 10 ds

/-- `BigInt` applied to a possibly-`undefined` value: `BigInt(undefined)`
throws, modelled as `none`. -/
def jsBigInt : Option String → Option Int
  | none => none
  | some s => jsBigIntOfString s

/-- A JavaScript number as produced by `Number(...)` on the integer-formatted
strings of this stream: `NaN` or an integer value. -/
inductive JsNum where
  | nan : JsNum
  | val : Int → JsNum
deriving DecidableEq, Repr

/-- `Number(x)` on a possibly-`undefined` string: never throws;
`Number(undefined)` is `NaN`, unparsable strings give `NaN`. -/
def jsNumber : Option String → JsNum
  | none => JsNum.nan
  | some s =>
    match jsBigIntOfString s with
    | some n => JsNum.val n
    | none => JsNum.nan

/-! ## Raw events and classification (myIndexer.indexer.ts lines 113-138) -/

/-- A raw event as delivered by the stream: `address` may be absent (the code
guards with `event.address?.toLowerCase()`), `keys` are the topics (the code
guards with `event.keys || []`, so an absent array behaves like `[]`),
`data` is the body array of felt strings, `eventIndex` may be absent (the
code uses `event.eventIndex || 0`, and `0` is falsy, so `some 0` and `none`
agree). -/
structure RawChainEvent where
  address : Option String
  keys : List String
  data : List String
  transactionHash : String
  eventIndex : Option Nat
deriving DecidableEq, Repr

def getEventType (e : RawChainEvent) : Option String :=
  match e.keys.head? with
  | none => none
  | some eventKey =>
    if eventKey = DEPOSIT_EVENT_KEY then some "deposit"
    else if eventKey = HTLC_CREATED_EVENT_KEY then some "htlc_created"
    else if eventKey = WITHDRAWAL_EVENT_KEY then some "htlc_redeemed"
    else none

def isFromPoolContract (e : RawChainEvent) : Bool :=
  match e.address.map jsToLower with
  | none => false
  | some fromAddress =>
    fromAddress == FAST_POOL_ADDRESS || fromAddress == STANDARD_POOL_ADDRESS

def determinePoolType (e : RawChainEvent) : String :=
  match e.address.map jsToLower with
  | none => "fast"
  | some addr =>
    if addr = FAST_POOL_ADDRESS then "fast"
    else if addr = STANDARD_POOL_ADDRESS then "standard"
    else "fast"

/-! ## Decoders (myIndexer.indexer.ts lines 59-111)

Each decoder reads `keys[1]` (which is simply `undefined`, not an error, when
the array is short) and coerces `data` entries; only a throwing `BigInt`
coercion reaches the `catch` and produces `null`. -/

structure DepositEvent where
  commitment : Option String
  leaf_index : JsNum
  timestamp : Int
deriving DecidableEq, Repr

def decodeDepositEvent (e : RawChainEvent) : Option DepositEvent :=
  let commitment := e.keys.get? 1
  let leaf_index := jsNumber (e.data.get? 0)
  match jsBigInt (e.data.get? 1) with
  | none => none
  | some timestamp => some ⟨commitment, leaf_index, timestamp⟩

structure HTLCCreatedEvent where
  nullifier : Option String
  hash_lock : Option String
  timelock : Int
  timestamp : Int
deriving DecidableEq, Repr

def decodeHTLCCreatedEvent (e : RawChainEvent) : Option HTLCCreatedEvent :=
  let nullifier := e.keys.get? 1
  let hash_lock := e.data.get? 0
  match jsBigInt (e.data.get? 1) with
  | none => none
  | some timelock =>
    match jsBigInt (e.data.get? 2) with
    | none => none
    | some timestamp => some ⟨nullifier, hash_lock, timelock, timestamp⟩

structure WithdrawalEvent where
  nullifier : Option String
  timestamp : Int
deriving DecidableEq, Repr

def decodeWithdrawalEvent (e : RawChainEvent) : Option WithdrawalEvent :=
  let nullifier := e.keys.get? 1
  match jsBigInt (e.data.get? 0) with
  | none => none
  | some timestamp => some ⟨nullifier, timestamp⟩

/-! ## Payload values

The objects built at myIndexer.indexer.ts lines 271-275, 289-294, 308-311 and
326-332 are JS objects whose values are strings (possibly `undefined`, when a
short `keys` array made `keys[1]` undefined) or numbers. -/

inductive JVal where
  | str : String → JVal
  | num : JsNum → JVal
  | undef : JVal
deriving DecidableEq, Repr

def jvalOfKey : Option String → JVal
  | none => JVal.undef
  | some s => JVal.str s

/-- `eventData` for a deposit (lines 271-275): `Number(deposit.leaf_index)`
is the identity on a JS number, `Number(deposit.timestamp)` converts the
BigInt to a number. -/
def depositEventData (d : DepositEvent) : List (String × JVal) :=
  [("commitment", jvalOfKey d.commitment),
   ("leaf_index", JVal.num d.leaf_index),
   ("timestamp", JVal.num (JsNum.val d.timestamp))]

/-- `eventData` for an htlc_created (lines 289-294). -/
def htlcCreatedEventData (h : HTLCCreatedEvent) : List (String × JVal) :=
  [("nullifier", jvalOfKey h.nullifier),
   ("hash_lock", jvalOfKey h.hash_lock),
   ("timelock", JVal.num (JsNum.val h.timelock)),
   ("timestamp", JVal.num (JsNum.val h.timestamp))]

/-- `eventData` for an htlc_redeemed / withdrawal (lines 308-311). -/
def withdrawalEventData (w : WithdrawalEvent) : List (String × JVal) :=
  [("nullifier", jvalOfKey w.nullifier),
   ("timestamp", JVal.num (JsNum.val w.timestamp))]

/-- The `swapEventData` object (lines 326-332): the four fixed keys in
declaration order followed by the spread of `eventData`. -/
def mkSwapEventData (eventType : String) (txHash : String) (poolType : String)
    (eventData : List (String × JVal)) : List (String × JVal) :=
  ("event_type", JVal.str eventType) :: ("chain", JVal.str "starknet") ::
    ("transaction_hash", JVal.str txHash) :: ("pool_type", JVal.str poolType) ::
    eventData

/-- Is this value serialized by `JSON.stringify`?  Properties holding
`undefined` are omitted from the serialized object. -/
def jvalIsDefined : JVal → Bool
  | JVal.undef => false
  | _ => true

/-- The entries of the JSON body produced by `JSON.stringify(eventData)`
(eventSelectors.ts line 74): properties whose value is `undefined` are
dropped; everything else is kept in declaration order. -/
def serializedEntries (payload : List (String × JVal)) : List (String × JVal) :=
  payload.filter fun kv => jvalIsDefined kv.2

/-- The keys present in the serialized JSON body. -/
def serializedKeys (payload : List (String × JVal)) : List String :=
  (serializedEntries payload).map Prod.fst

/-- The decode `switch` (lines 259-317): picks the decoder for the event type
and yields the `swapId` together with `eventData`; `null` from a decoder means
`continue` (skip the event), as does the `default` branch. -/
def decodeForType (eventType : String) (e : RawChainEvent) :
    Option (Option String × List (String × JVal)) :=
  if eventType = "deposit" then
    (decodeDepositEvent e).map fun d => (d.commitment, depositEventData d)
  else if eventType = "htlc_created" then
    (decodeHTLCCreatedEvent e).map fun h => (h.nullifier, htlcCreatedEventData h)
  else if eventType = "htlc_redeemed" then
    (decodeWithdrawalEvent e).map fun w => (w.nullifier, withdrawalEventData w)
  else none

/-! ## Persistence (myIndexer.indexer.ts lines 358-404, schema from
`src/unnamed/part_001`) -/

/-- The eventId derivation (lines 360-362):
`` `${event.transactionHash}_${event.eventIndex || 0}_${eventType}` ``. -/
def mkEventId (txHash : String) (eventIndex : Option Nat) (eventType : String) :
    String :=
  txHash ++ "_" ++ toString (eventIndex.getD 0) ++ "_" ++ eventType

/-- Declared width of the `event_id` column:
`varchar("event_id", { length: 66 })`. -/
def htlcEventsEventIdMaxLength : Nat := 66

/-- The values inserted into `htlc_events` (lines 378-390).  The two wall
clock `new Date()` columns are not represented (no claim depends on them). -/
structure HtlcEventRecord where
  eventId : String
  swapId : Option String
  eventType : String
  eventData : List (String × JVal)
  chain : String
  blockNumber : Int
  transactionHash : String
  inMerkleTree : Bool
  poolType : String
deriving DecidableEq, Repr

/-! ## The per-block transform loop (myIndexer.indexer.ts lines 186-406)

Effects are made explicit: the relayer call's outcome and the storage
handle's behaviour come from an oracle; the state records the persisted rows
and the relayer calls that were issued. -/

/-- Outcome of one `sendEventToRelayer` invocation as seen by `transform`:
either the promise resolved with a boolean, or it rejected (caught at
line 351). -/
inductive DeliverOutcome where
  | returned : Bool → DeliverOutcome
  | threw : DeliverOutcome
deriving DecidableEq, Repr

structure TransformOracle where
  /-- Result of the n-th relayer call (by call counter) on a given payload. -/
  deliver : Nat → List (String × JVal) → DeliverOutcome
  /-- Whether the n-th database section (select/insert, lines 358-397)
  throws; a throw is caught at line 398 and nothing is persisted. -/
  dbThrow : Nat → Bool

structure TransformState where
  store : List HtlcEventRecord
  deliveries : List (List (String × JVal) × DeliverOutcome)
  deliverCalls : Nat
  dbCalls : Nat
deriving DecidableEq, Repr

/-- The relayer call of lines 334-356: always issued once the event decoded;
its outcome (success, failure or exception) only affects logging. -/
def recordDelivery (o : TransformOracle) (st : TransformState)
    (payload : List (String × JVal)) : TransformState :=
  { st with
    deliveries := st.deliveries ++ [(payload, o.deliver st.deliverCalls payload)]
    deliverCalls := st.deliverCalls + 1 }

/-- The persistence section of lines 358-404: select by `eventId`, skip the
insert when a row exists, otherwise insert; any database error is caught and
leaves the store unchanged. -/
def persistEvent (o : TransformOracle) (blockNumber : Int) (st : TransformState)
    (e : RawChainEvent) (eventType : String) (swapId : Option String)
    (eventData : List (String × JVal)) (poolType : String) : TransformState :=
  if o.dbThrow st.dbCalls then { st with dbCalls := st.dbCalls + 1 }
  else
    let eventId := mkEventId e.transactionHash e.eventIndex eventType
    if st.store.any (fun r => r.eventId == eventId) then
      { st with dbCalls := st.dbCalls + 1 }
    else
      { st with
        store := st.store ++
          [{ eventId := eventId, swapId := swapId, eventType := eventType,
             eventData := eventData, chain := "starknet",
             blockNumber := blockNumber,
             transactionHash := e.transactionHash,
             inMerkleTree := false, poolType := poolType }]
        dbCalls := st.dbCalls + 1 }

/-- One iteration of the `for (const event of block.events)` loop
(lines 215-405): admission filter, classification, decode, relayer call,
then dedup check and insert. -/
def processEvent (o : TransformOracle) (blockNumber : Int)
    (st : TransformState) (e : RawChainEvent) : TransformState :=
  if isFromPoolContract e then
    match getEventType e with
    | none => st
    | some eventType =>
      let poolType := determinePoolType e
      match decodeForType eventType e with
      | none => st
      | some (swapId, eventData) =>
        let payload := mkSwapEventData eventType e.transactionHash poolType
          eventData
        let st1 := recordDelivery o st payload
        persistEvent o blockNumber st1 e eventType swapId eventData poolType
  else st

/-- The whole event loop, strictly in producer order. -/
def processEvents (o : TransformOracle) (blockNumber : Int)
    (events : List RawChainEvent) (st : TransformState) : TransformState :=
  match events with
  | [] => st
  | e :: rest => processEvents o blockNumber rest (processEvent o blockNumber st e)

structure BlockHeader where
  blockNumber : Int
deriving DecidableEq, Repr

structure Block where
  header : BlockHeader
  events : List RawChainEvent
deriving DecidableEq, Repr

/-! ## Relayer configuration (eventSelectors.ts relayerApi part,
lines 190-201 and 60-71) -/

/-- The two environment variables the relayer client needs. -/
structure RelayerEnv where
  relayerUrl : Option String
  hmacSecret : Option String

/-- JS falsiness of `process.env[v]`: unset or the empty string. -/
def isBlank : Option String → Bool
  | none => true
  | some s => s == ""

def requiredVars : List String := ["RELAYER_URL", "HMAC_SECRET"]

def envGet (env : RelayerEnv) (v : String) : Option String :=
  if v = "RELAYER_URL" then env.relayerUrl
  else if v = "HMAC_SECRET" then env.hmacSecret
  else none

structure ValidationResult where
  isValid : Bool
  missingVars : List String
deriving DecidableEq, Repr

def validateRelayerVariables (env : RelayerEnv) : ValidationResult :=
  let missingVars := requiredVars.filter (fun v => isBlank (envGet env v))
  ⟨missingVars.length == 0, missingVars⟩

/-- The `transform` handler (lines 186-406): the configuration check throws
before any event is examined; otherwise every event of the block is processed
in order. -/
def transform (env : RelayerEnv) (o : TransformOracle) (b : Block)
    (st : TransformState) : Except (List String) TransformState :=
  let envCheck := validateRelayerVariables env
  if envCheck.isValid then
    Except.ok (processEvents o b.header.blockNumber b.events st)
  else Except.error envCheck.missingVars

/-! ## The relayer HTTP client (eventSelectors.ts relayerApi part,
lines 30-188)

The Node `crypto` HMAC-SHA256 primitive and the wall clock are external
library calls; they enter the model as an abstract hex-HMAC function
`hmacSha256Hex : secret → message → hexDigest` and a per-attempt clock
`nowMsAt : attempt → milliseconds`.  The network is an oracle mapping the
attempt number to what that attempt observed. -/

/-- `createHMACSignature` (lines 30-37): HMAC-SHA256 keyed by `secret` over
`timestamp + payload`, hex encoded. -/
def createHMACSignature (hmacSha256Hex : String → String → String)
    (payload : String) (secret : String) (timestamp : String) : String :=
  let message := timestamp ++ payload
  hmacSha256Hex secret message

structure RelayerRequest where
  url : String
  method : String
  headers : List (String × String)
  body : String
deriving DecidableEq, Repr

/-- The request built by one attempt (lines 73-95): timestamp is
`Math.floor(Date.now() / 1000).toString()`, and the payload travels as the
body with the signature headers. -/
def buildRelayerRequest (hmacSha256Hex : String → String → String)
    (nowMs : Nat) (relayerUrl : String) (hmacSecret : String)
    (payload : String) : RelayerRequest :=
  let timestamp := toString (nowMs / 1000)
  let signature := createHMACSignature hmacSha256Hex payload hmacSecret timestamp
  { url := relayerUrl ++ "/indexer/event"
    method := "POST"
    headers := [("Content-Type", "application/json"),
                ("x-timestamp", timestamp),
                ("x-signature", signature)]
    body := payload }

/-- What one HTTP attempt observed: a non-2xx response with a status, an
exception (transport failure, the 60s abort, or an unparsable body), or a
2xx response whose parsed body carried this `success` flag. -/
inductive AttemptResult where
  | httpError : Nat → AttemptResult
  | exn : AttemptResult
  | okBody : Bool → AttemptResult
deriving DecidableEq, Repr

/-- All three non-success observations are attempt failures. -/
def isAttemptFailure : AttemptResult → Bool
  | AttemptResult.okBody true => false
  | _ => true

/-- Externally visible steps of the retry loop: an HTTP attempt (with its
number, the request it sent and the timeout bounding it) or a retry wait. -/
inductive RelayerStep where
  | attempt : Nat → RelayerRequest → Nat → RelayerStep
  | wait : Nat → RelayerStep
deriving DecidableEq, Repr

def maxRetries : Nat := 3
def timeoutMs : Nat := 60000
def retryDelayMs : Nat := 5000

/-- The retry loop of `sendEventToRelayer` (lines 60-185): the fuel argument
counts the remaining loop iterations (`maxRetries - attempt + 1`), so the
fuel-0 case is the unreachable `return false` after the loop (line 187).
Each iteration re-reads the environment, gives up immediately if a
credential is blank, sends the request, returns `true` on a 2xx body with
`success: true`, and otherwise either returns `false` (after the last
attempt) or waits the fixed delay and retries. -/
def relayerLoop (hmacSha256Hex : String → String → String)
    (nowMsAt : Nat → Nat) (env : RelayerEnv) (payload : String)
    (attemptResult : Nat → AttemptResult) :
    Nat → Nat → Bool × List RelayerStep
  | 0, _ => (false, [])
  | fuel + 1, attempt =>
    if isBlank env.relayerUrl || isBlank env.hmacSecret then (false, [])
    else
      let req := buildRelayerRequest hmacSha256Hex (nowMsAt attempt)
        (env.relayerUrl.getD "") (env.hmacSecret.getD "") payload
      let step := RelayerStep.attempt attempt req timeoutMs
      match attemptResult attempt with
      | AttemptResult.okBody true => (true, [step])
      | _ =>
        if attempt == maxRetries then (false, [step])
        else
          let rest := relayerLoop hmacSha256Hex nowMsAt env payload
            attemptResult fuel (attempt + 1)
          (rest.1, step :: RelayerStep.wait retryDelayMs :: rest.2)

/-- `sendEventToRelayer` (lines 52-188): the loop runs attempts `1..3`;
returns whether delivery succeeded, together with the observed steps. -/
def sendEventToRelayer (hmacSha256Hex : String → String → String)
    (nowMsAt : Nat → Nat) (env : RelayerEnv) (payload : String)
    (attemptResult : Nat → AttemptResult) : Bool × List RelayerStep :=
  relayerLoop hmacSha256Hex nowMsAt env payload attemptResult maxRetries 1

/-! ## Concrete instances used to evaluate the model -/

/-- Oracle whose relayer always answers success and whose database never
throws. -/
def trivialOracle : TransformOracle :=
  ⟨fun _ _ => DeliverOutcome.returned true, fun _ => false⟩

def emptyState : TransformState := ⟨[], [], 0, 0⟩

def sampleEnv : RelayerEnv := ⟨some "http://relayer", some "secret"⟩

/-- A well-formed deposit event from the fast pool. -/
def c1Event : RawChainEvent :=
  { address := some FAST_POOL_ADDRESS
    keys := [DEPOSIT_EVENT_KEY, "0xc1commitment"]
    data := ["1", "2"]
    transactionHash := "0xt1"
    eventIndex := some 0 }

/-- The row `transform` would persist for `c1Event` in block 1. -/
def c1Record : HtlcEventRecord :=
  { eventId := mkEventId "0xt1" (some 0) "deposit"
    swapId := some "0xc1commitment"
    eventType := "deposit"
    eventData := [("commitment", JVal.str "0xc1commitment"),
                  ("leaf_index", JVal.num (JsNum.val 1)),
                  ("timestamp", JVal.num (JsNum.val 2))]
    chain := "starknet"
    blockNumber := 1
    transactionHash := "0xt1"
    inMerkleTree := false
    poolType := "fast" }

/-- A store that already holds the record derived from `c1Event`. -/
def c1State : TransformState := ⟨[c1Record], [], 0, 0⟩

def c1Block : Block := ⟨⟨1⟩, [c1Event]⟩

/-- Recognized origin but an empty topics array. -/
def c2Event : RawChainEvent :=
  { address := some STANDARD_POOL_ADDRESS
    keys := []
    data := ["1"]
    transactionHash := "0xt2"
    eventIndex := some 1 }

/-- An event whose only topic is the (66-character) deposit selector. -/
def c3Event : RawChainEvent :=
  { address := some FAST_POOL_ADDRESS
    keys := [DEPOSIT_EVENT_KEY]
    data := []
    transactionHash := "0xt3"
    eventIndex := none }

/-- A deposit event with a single topic (fewer than the two the spec
requires) whose body still coerces cleanly. -/
def c6Event : RawChainEvent :=
  { address := some FAST_POOL_ADDRESS
    keys := [DEPOSIT_EVENT_KEY]
    data := ["5", "7"]
    transactionHash := "0xt6"
    eventIndex := some 0 }

/-- A deposit event whose body is too short, so `BigInt(data[1])` throws. -/
def c6FailEvent : RawChainEvent :=
  { address := some FAST_POOL_ADDRESS
    keys := [DEPOSIT_EVENT_KEY, "0xc6"]
    data := ["5"]
    transactionHash := "0xt6f"
    eventIndex := some 2 }

/-- The spec's §8 deposit scenario: `topics=[DEPOSIT_KEY, "0xCOMMIT"]`,
`fields=[5, 1700000000]`, origin = fast pool. -/
def c7Event : RawChainEvent :=
  { address := some FAST_POOL_ADDRESS
    keys := [DEPOSIT_EVENT_KEY, "0xCOMMIT"]
    data := ["5", "1700000000"]
    transactionHash := "0xt7"
    eventIndex := some 0 }

/-- An environment with both relayer variables missing. -/
def c9Env : RelayerEnv := ⟨none, none⟩

/-- A 66-character transaction hash (`0x` plus 64 hex digits). -/
def c10TxHash : String :=
  "0x00a1b2c3d4e5f68790a1b2c3d4e5f68790a1b2c3d4e5f68790a1b2c3d4e5f687"

/-- A relayer oracle that always answers HTTP 500. -/
def alwaysHttp500 : Nat → AttemptResult := fun _ => AttemptResult.httpError 500

/-- A relayer oracle that fails twice, then succeeds. -/
def failFailOk : Nat → AttemptResult := fun n =>
  if n ≤ 2 then AttemptResult.exn else AttemptResult.okBody true

/-- A stand-in for the hex HMAC primitive, used to evaluate the model. -/
def constHmac : String → String → String := fun _ _ => "deadbeef"

/-- A stand-in clock: attempt `n` happens at `n * 1000` milliseconds. -/
def attemptClock : Nat → Nat := fun n => n * 1000

/-- An environment with a missing relayer URL (sendEventToRelayer's own
credential check, line 65). -/
def c5Env : RelayerEnv := ⟨none, some "secret"⟩

/-! ## Derived views of the event loop, used in proofs -/

/-- The admission/classification/decode cascade of one loop iteration,
collapsed into one classifier: `none` means the event is skipped with no
side effect, `some (t, swapId, eventData)` means it proceeds to delivery and
persistence. -/
def eventPlan (e : RawChainEvent) :
    Option (String × Option String × List (String × JVal)) :=
  if isFromPoolContract e then
    match getEventType e with
    | none => none
    | some t => (decodeForType t e).map fun p => (t, p.1, p.2)
  else none

/-- The eventIds of the persisted rows. -/
def storeIds (st : TransformState) : List String :=
  st.store.map HtlcEventRecord.eventId

/-- The row `persistEvent` inserts when the eventId is new. -/
def mkRecord (blockNumber : Int) (e : RawChainEvent) (eventType : String)
    (swapId : Option String) (eventData : List (String × JVal))
    (poolType : String) : HtlcEventRecord :=
  { eventId := mkEventId e.transactionHash e.eventIndex eventType
    swapId := swapId, eventType := eventType, eventData := eventData
    chain := "starknet", blockNumber := blockNumber
    transactionHash := e.transactionHash
    inMerkleTree := false, poolType := poolType }

/-- `eventData` of the spec's §8 deposit scenario (`c7Event`). -/
def c7Ed : List (String × JVal) :=
  [("commitment", JVal.str "0xCOMMIT"),
   ("leaf_index", JVal.num (JsNum.val 5)),
   ("timestamp", JVal.num (JsNum.val 1700000000))]

/-- `eventData` of `c1Event`. -/
def c1Ed : List (String × JVal) :=
  [("commitment", JVal.str "0xc1commitment"),
   ("leaf_index", JVal.num (JsNum.val 1)),
   ("timestamp", JVal.num (JsNum.val 2))]

/-! ## Helper lemmas -/

theorem toDigitsCore_length_le (b : Nat) :
    ∀ (f n : Nat) (l : List Char), l.length ≤ (Nat.toDigitsCore b f n l).length := by
  intro f
  induction f with
  | zero => intro n l; simp [Nat.toDigitsCore]
  | succ f ih =>
    intro n l
    simp only [Nat.toDigitsCore]
    split
    · simp
    · calc l.length ≤ (Nat.digitChar (n % b) :: l).length := by simp
        _ ≤ _ := ih (n / b) (Nat.digitChar (n % b) :: l)

theorem natRepr_length_pos (n : Nat) : 1 ≤ (Nat.repr n).length := by
  unfold Nat.repr Nat.toDigits
  simp only [List.asString, String.length]
  simp only [Nat.toDigitsCore]
  split
  · simp
  · have h := toDigitsCore_length_le 10 n (n / 10) [Nat.digitChar (n % 10)]
    simpa using h

theorem getEventType_none_of_bad_topics (e : RawChainEvent)
    (h : e.keys.head? = none ∨
      ∃ k, e.keys.head? = some k ∧ k ≠ DEPOSIT_EVENT_KEY ∧
        k ≠ HTLC_CREATED_EVENT_KEY ∧ k ≠ WITHDRAWAL_EVENT_KEY) :
    getEventType e = none := by
  unfold getEventType
  rcases h with h | ⟨k, hk, h1, h2, h3⟩
  · rw [h]
  · rw [hk]; simp [h1, h2, h3]

theorem processEvent_not_pool (o : TransformOracle) (bn : Int)
    (st : TransformState) (e : RawChainEvent)
    (h : isFromPoolContract e = false) :
    processEvent o bn st e = st := by
  unfold processEvent
  simp [h]

theorem processEvent_no_type (o : TransformOracle) (bn : Int)
    (st : TransformState) (e : RawChainEvent)
    (h : getEventType e = none) :
    processEvent o bn st e = st := by
  unfold processEvent
  cases hp : isFromPoolContract e <;> simp [h]

theorem processEvent_no_decode (o : TransformOracle) (bn : Int)
    (st : TransformState) (e : RawChainEvent) (t : String)
    (ht : getEventType e = some t) (hd : decodeForType t e = none) :
    processEvent o bn st e = st := by
  unfold processEvent
  cases hp : isFromPoolContract e <;> simp [ht, hd]

theorem processEvent_eq_plan (o : TransformOracle) (bn : Int)
    (st : TransformState) (e : RawChainEvent) :
    processEvent o bn st e =
      match eventPlan e with
      | none => st
      | some (t, swapId, eventData) =>
        persistEvent o bn
          (recordDelivery o st
            (mkSwapEventData t e.transactionHash (determinePoolType e) eventData))
          e t swapId eventData (determinePoolType e) := by
  unfold processEvent eventPlan
  cases hp : isFromPoolContract e
  · simp
  · simp only [if_true]
    cases ht : getEventType e with
    | none => simp
    | some t =>
      cases hd : decodeForType t e with
      | none => simp [hd]
      | some p => obtain ⟨sid, ed⟩ := p; simp [hd]

theorem persistEvent_deliveries (o : TransformOracle) (bn : Int)
    (st : TransformState) (e : RawChainEvent) (t : String)
    (sid : Option String) (ed : List (String × JVal)) (pt : String) :
    (persistEvent o bn st e t sid ed pt).deliveries = st.deliveries := by
  simp only [persistEvent]
  split
  · rfl
  · split <;> rfl

theorem persistEvent_deliverCalls (o : TransformOracle) (bn : Int)
    (st : TransformState) (e : RawChainEvent) (t : String)
    (sid : Option String) (ed : List (String × JVal)) (pt : String) :
    (persistEvent o bn st e t sid ed pt).deliverCalls = st.deliverCalls := by
  simp only [persistEvent]
  split
  · rfl
  · split <;> rfl

theorem store_any_eq_mem (st : TransformState) (id : String) :
    (st.store.any fun r => r.eventId == id) = true ↔ id ∈ storeIds st := by
  simp only [storeIds, List.any_eq_true, List.mem_map, beq_iff_eq]

theorem persistEvent_store_mem (o : TransformOracle) (bn : Int)
    (st : TransformState) (e : RawChainEvent) (t : String)
    (sid : Option String) (ed : List (String × JVal)) (pt : String)
    (hdb : o.dbThrow st.dbCalls = false)
    (hmem : mkEventId e.transactionHash e.eventIndex t ∈ storeIds st) :
    (persistEvent o bn st e t sid ed pt).store = st.store := by
  simp only [persistEvent, hdb, Bool.false_eq_true, if_false]
  rw [if_pos ((store_any_eq_mem st _).mpr hmem)]

theorem persistEvent_store_new (o : TransformOracle) (bn : Int)
    (st : TransformState) (e : RawChainEvent) (t : String)
    (sid : Option String) (ed : List (String × JVal)) (pt : String)
    (hdb : o.dbThrow st.dbCalls = false)
    (hmem : mkEventId e.transactionHash e.eventIndex t ∉ storeIds st) :
    (persistEvent o bn st e t sid ed pt).store =
      st.store ++ [mkRecord bn e t sid ed pt] := by
  simp only [persistEvent, hdb, Bool.false_eq_true, if_false]
  rw [if_neg (fun h => hmem ((store_any_eq_mem st _).mp h))]
  rfl

theorem processEvent_deliveries_plan (o : TransformOracle) (bn : Int)
    (st : TransformState) (e : RawChainEvent) (t : String)
    (sid : Option String) (ed : List (String × JVal))
    (hplan : eventPlan e = some (t, sid, ed)) :
    (processEvent o bn st e).deliveries =
      st.deliveries ++
        [(mkSwapEventData t e.transactionHash (determinePoolType e) ed,
          o.deliver st.deliverCalls
            (mkSwapEventData t e.transactionHash (determinePoolType e) ed))] := by
  rw [processEvent_eq_plan, hplan]
  rw [persistEvent_deliveries]
  rfl

theorem processEvent_store_skip (o : TransformOracle) (bn : Int)
    (st : TransformState) (e : RawChainEvent)
    (hplan : eventPlan e = none) :
    processEvent o bn st e = st := by
  rw [processEvent_eq_plan, hplan]

theorem processEvent_store_mem (o : TransformOracle) (bn : Int)
    (st : TransformState) (e : RawChainEvent) (t : String)
    (sid : Option String) (ed : List (String × JVal))
    (hdb : ∀ n, o.dbThrow n = false)
    (hplan : eventPlan e = some (t, sid, ed))
    (hmem : mkEventId e.transactionHash e.eventIndex t ∈ storeIds st) :
    (processEvent o bn st e).store = st.store := by
  rw [processEvent_eq_plan, hplan]
  exact persistEvent_store_mem _ _ _ _ _ _ _ _ (hdb _) hmem

theorem processEvent_store_new (o : TransformOracle) (bn : Int)
    (st : TransformState) (e : RawChainEvent) (t : String)
    (sid : Option String) (ed : List (String × JVal))
    (hdb : ∀ n, o.dbThrow n = false)
    (hplan : eventPlan e = some (t, sid, ed))
    (hmem : mkEventId e.transactionHash e.eventIndex t ∉ storeIds st) :
    (processEvent o bn st e).store =
      st.store ++ [mkRecord bn e t sid ed (determinePoolType e)] := by
  rw [processEvent_eq_plan, hplan]
  exact persistEvent_store_new _ _ _ _ _ _ _ _ (hdb _) hmem

theorem processEvent_storeIds_mono (o : TransformOracle) (bn : Int)
    (st : TransformState) (e : RawChainEvent)
    (hdb : ∀ n, o.dbThrow n = false) (id : String)
    (hid : id ∈ storeIds st) : id ∈ storeIds (processEvent o bn st e) := by
  cases hplan : eventPlan e with
  | none => rw [processEvent_store_skip o bn st e hplan]; exact hid
  | some p =>
    obtain ⟨t, sid, ed⟩ := p
    by_cases hmem : mkEventId e.transactionHash e.eventIndex t ∈ storeIds st
    · rw [storeIds, processEvent_store_mem o bn st e t sid ed hdb hplan hmem]
      exact hid
    · rw [storeIds, processEvent_store_new o bn st e t sid ed hdb hplan hmem]
      rw [List.map_append]
      exact List.mem_append_left _ hid

theorem processEvent_planned_present (o : TransformOracle) (bn : Int)
    (st : TransformState) (e : RawChainEvent) (t : String)
    (sid : Option String) (ed : List (String × JVal))
    (hdb : ∀ n, o.dbThrow n = false)
    (hplan : eventPlan e = some (t, sid, ed)) :
    mkEventId e.transactionHash e.eventIndex t ∈
      storeIds (processEvent o bn st e) := by
  by_cases hmem : mkEventId e.transactionHash e.eventIndex t ∈ storeIds st
  · rw [storeIds, processEvent_store_mem o bn st e t sid ed hdb hplan hmem]
    exact hmem
  · rw [storeIds, processEvent_store_new o bn st e t sid ed hdb hplan hmem]
    rw [List.map_append]
    refine List.mem_append_right _ ?_
    simp [mkRecord]

theorem processEvent_storeIds_nodup (o : TransformOracle) (bn : Int)
    (st : TransformState) (e : RawChainEvent)
    (hdb : ∀ n, o.dbThrow n = false)
    (hnd : (storeIds st).Nodup) :
    (storeIds (processEvent o bn st e)).Nodup := by
  cases hplan : eventPlan e with
  | none => rw [processEvent_store_skip o bn st e hplan]; exact hnd
  | some p =>
    obtain ⟨t, sid, ed⟩ := p
    by_cases hmem : mkEventId e.transactionHash e.eventIndex t ∈ storeIds st
    · rw [storeIds, processEvent_store_mem o bn st e t sid ed hdb hplan hmem]
      exact hnd
    · rw [storeIds, processEvent_store_new o bn st e t sid ed hdb hplan hmem]
      rw [List.map_append, List.nodup_append]
      refine ⟨hnd, by simp, ?_⟩
      intro a ha hb
      simp only [mkRecord, List.map_cons, List.map_nil, List.mem_singleton] at hb
      exact hmem (hb ▸ ha)

theorem processEvents_storeIds_mono (o : TransformOracle) (bn : Int)
    (events : List RawChainEvent)
    (hdb : ∀ n, o.dbThrow n = false) :
    ∀ (st : TransformState) (id : String), id ∈ storeIds st →
      id ∈ storeIds (processEvents o bn events st) := by
  induction events with
  | nil => intro st id hid; exact hid
  | cons e rest ih =>
    intro st id hid
    exact ih _ id (processEvent_storeIds_mono o bn st e hdb id hid)

theorem processEvents_storeIds_nodup (o : TransformOracle) (bn : Int)
    (events : List RawChainEvent)
    (hdb : ∀ n, o.dbThrow n = false) :
    ∀ (st : TransformState), (storeIds st).Nodup →
      (storeIds (processEvents o bn events st)).Nodup := by
  induction events with
  | nil => intro st hnd; exact hnd
  | cons e rest ih =>
    intro st hnd
    exact ih _ (processEvent_storeIds_nodup o bn st e hdb hnd)

theorem processEvents_all_planned_present (o : TransformOracle) (bn : Int)
    (events : List RawChainEvent)
    (hdb : ∀ n, o.dbThrow n = false) :
    ∀ (st : TransformState) (e : RawChainEvent), e ∈ events →
      ∀ (t : String) (sid : Option String) (ed : List (String × JVal)),
        eventPlan e = some (t, sid, ed) →
        mkEventId e.transactionHash e.eventIndex t ∈
          storeIds (processEvents o bn events st) := by
  induction events with
  | nil => intro st e he; exact absurd he (List.not_mem_nil e)
  | cons e0 rest ih =>
    intro st e he t sid ed hplan
    rcases List.mem_cons.mp he with rfl | he
    · exact processEvents_storeIds_mono o bn rest hdb _ _
        (processEvent_planned_present o bn st e t sid ed hdb hplan)
    · exact ih _ e he t sid ed hplan

theorem processEvents_store_noop (o : TransformOracle) (bn : Int)
    (events : List RawChainEvent)
    (hdb : ∀ n, o.dbThrow n = false) :
    ∀ (st : TransformState),
      (∀ e ∈ events, ∀ (t : String) (sid : Option String)
        (ed : List (String × JVal)), eventPlan e = some (t, sid, ed) →
        mkEventId e.transactionHash e.eventIndex t ∈ storeIds st) →
      (processEvents o bn events st).store = st.store := by
  induction events with
  | nil => intro st _; rfl
  | cons e rest ih =>
    intro st hall
    have hstep : (processEvent o bn st e).store = st.store := by
      cases hplan : eventPlan e with
      | none => rw [processEvent_store_skip o bn st e hplan]
      | some p =>
        obtain ⟨t, sid, ed⟩ := p
        exact processEvent_store_mem o bn st e t sid ed hdb hplan
          (hall e (List.mem_cons_self e rest) t sid ed hplan)
    have hrest : (processEvents o bn rest (processEvent o bn st e)).store =
        (processEvent o bn st e).store := by
      refine ih _ ?_
      intro e1 he1 t sid ed hplan
      have := hall e1 (List.mem_cons_of_mem e he1) t sid ed hplan
      rw [storeIds, hstep]
      exact this
    calc (processEvents o bn (e :: rest) st).store
        = (processEvents o bn rest (processEvent o bn st e)).store := rfl
      _ = (processEvent o bn st e).store := hrest
      _ = st.store := hstep

theorem eventPlan_decode (e : RawChainEvent) (t : String) (sid : Option String)
    (ed : List (String × JVal))
    (hplan : eventPlan e = some (t, sid, ed)) :
    isFromPoolContract e = true ∧ getEventType e = some t ∧
      decodeForType t e = some (sid, ed) := by
  unfold eventPlan at hplan
  by_cases hp : isFromPoolContract e = true
  · rw [if_pos hp] at hplan
    cases ht : getEventType e with
    | none => rw [ht] at hplan; exact absurd hplan (by simp)
    | some t0 =>
      rw [ht] at hplan
      dsimp only at hplan
      cases hd : decodeForType t0 e with
      | none => rw [hd] at hplan; exact absurd hplan (by simp)
      | some p =>
        obtain ⟨sid0, ed0⟩ := p
        rw [hd] at hplan
        simp only [Option.map_some', Option.some.injEq, Prod.mk.injEq] at hplan
        obtain ⟨rfl, rfl, rfl⟩ := hplan
        exact ⟨hp, rfl, hd⟩
  · rw [if_neg hp] at hplan
    exact absurd hplan (by simp)

theorem decodeForType_variant_keys (e : RawChainEvent) (t : String)
    (sid : Option String) (ed : List (String × JVal))
    (hd : decodeForType t e = some (sid, ed)) :
    (t = "deposit" → ed.map Prod.fst = ["commitment", "leaf_index", "timestamp"]) ∧
    (t = "htlc_created" →
      ed.map Prod.fst = ["nullifier", "hash_lock", "timelock", "timestamp"]) ∧
    (t = "htlc_redeemed" → ed.map Prod.fst = ["nullifier", "timestamp"]) := by
  refine ⟨?_, ?_, ?_⟩
  · rintro rfl
    unfold decodeForType at hd
    rw [if_pos rfl] at hd
    cases hdd : decodeDepositEvent e with
    | none => rw [hdd] at hd; exact absurd hd (by simp)
    | some d =>
      rw [hdd] at hd
      simp only [Option.map_some', Option.some.injEq, Prod.mk.injEq] at hd
      rw [← hd.2]
      simp [depositEventData]
  · rintro rfl
    unfold decodeForType at hd
    rw [if_neg (by decide), if_pos rfl] at hd
    cases hdd : decodeHTLCCreatedEvent e with
    | none => rw [hdd] at hd; exact absurd hd (by simp)
    | some d =>
      rw [hdd] at hd
      simp only [Option.map_some', Option.some.injEq, Prod.mk.injEq] at hd
      rw [← hd.2]
      simp [htlcCreatedEventData]
  · rintro rfl
    unfold decodeForType at hd
    rw [if_neg (by decide), if_neg (by decide), if_pos rfl] at hd
    cases hdd : decodeWithdrawalEvent e with
    | none => rw [hdd] at hd; exact absurd hd (by simp)
    | some d =>
      rw [hdd] at hd
      simp only [Option.map_some', Option.some.injEq, Prod.mk.injEq] at hd
      rw [← hd.2]
      simp [withdrawalEventData]

theorem serializedKeys_mkSwapEventData (t tx pt : String)
    (ed : List (String × JVal)) :
    serializedKeys (mkSwapEventData t tx pt ed) =
      "event_type" :: "chain" :: "transaction_hash" :: "pool_type" ::
        serializedKeys ed := by
  simp [serializedKeys, serializedEntries, mkSwapEventData, jvalIsDefined]

theorem serializedKeys_depositEventData (d : DepositEvent) :
    serializedKeys (depositEventData d) =
      (if d.commitment.isSome then ["commitment"] else []) ++
        ["leaf_index", "timestamp"] := by
  cases hc : d.commitment <;>
    simp [depositEventData, serializedKeys, serializedEntries, jvalOfKey,
      jvalIsDefined, hc]

theorem serializedKeys_htlcCreatedEventData (h0 : HTLCCreatedEvent) :
    serializedKeys (htlcCreatedEventData h0) =
      (if h0.nullifier.isSome then ["nullifier"] else []) ++
      (if h0.hash_lock.isSome then ["hash_lock"] else []) ++
        ["timelock", "timestamp"] := by
  cases hn : h0.nullifier <;> cases hh : h0.hash_lock <;>
    simp [htlcCreatedEventData, serializedKeys, serializedEntries, jvalOfKey,
      jvalIsDefined, hn, hh]

theorem serializedKeys_withdrawalEventData (w : WithdrawalEvent) :
    serializedKeys (withdrawalEventData w) =
      (if w.nullifier.isSome then ["nullifier"] else []) ++ ["timestamp"] := by
  cases hn : w.nullifier <;>
    simp [withdrawalEventData, serializedKeys, serializedEntries, jvalOfKey,
      jvalIsDefined, hn]

theorem decodeForType_deposit_elim (e : RawChainEvent) (sid : Option String)
    (ed : List (String × JVal))
    (hd : decodeForType "deposit" e = some (sid, ed)) :
    ∃ d, decodeDepositEvent e = some d ∧ sid = d.commitment ∧
      ed = depositEventData d := by
  unfold decodeForType at hd
  rw [if_pos rfl] at hd
  cases hdd : decodeDepositEvent e with
  | none => rw [hdd] at hd; exact absurd hd (by simp)
  | some d =>
    rw [hdd] at hd
    simp only [Option.map_some', Option.some.injEq, Prod.mk.injEq] at hd
    exact ⟨d, rfl, hd.1.symm, hd.2.symm⟩

theorem decodeForType_htlc_elim (e : RawChainEvent) (sid : Option String)
    (ed : List (String × JVal))
    (hd : decodeForType "htlc_created" e = some (sid, ed)) :
    ∃ d, decodeHTLCCreatedEvent e = some d ∧ sid = d.nullifier ∧
      ed = htlcCreatedEventData d := by
  unfold decodeForType at hd
  rw [if_neg (by decide), if_pos rfl] at hd
  cases hdd : decodeHTLCCreatedEvent e with
  | none => rw [hdd] at hd; exact absurd hd (by simp)
  | some d =>
    rw [hdd] at hd
    simp only [Option.map_some', Option.some.injEq, Prod.mk.injEq] at hd
    exact ⟨d, rfl, hd.1.symm, hd.2.symm⟩

theorem decodeForType_withdrawal_elim (e : RawChainEvent) (sid : Option String)
    (ed : List (String × JVal))
    (hd : decodeForType "htlc_redeemed" e = some (sid, ed)) :
    ∃ d, decodeWithdrawalEvent e = some d ∧ sid = d.nullifier ∧
      ed = withdrawalEventData d := by
  unfold decodeForType at hd
  rw [if_neg (by decide), if_neg (by decide), if_pos rfl] at hd
  cases hdd : decodeWithdrawalEvent e with
  | none => rw [hdd] at hd; exact absurd hd (by simp)
  | some d =>
    rw [hdd] at hd
    simp only [Option.map_some', Option.some.injEq, Prod.mk.injEq] at hd
    exact ⟨d, rfl, hd.1.symm, hd.2.symm⟩

theorem decodeDepositEvent_commitment (e : RawChainEvent) (d : DepositEvent)
    (h : decodeDepositEvent e = some d) : d.commitment = e.keys.get? 1 := by
  simp only [decodeDepositEvent] at h
  cases hjs : jsBigInt (e.data.get? 1) with
  | none => simp only [hjs] at h; exact Option.noConfusion h
  | some ts =>
    simp only [hjs] at h
    injection h with h2
    rw [← h2]

theorem decodeHTLCCreatedEvent_fields (e : RawChainEvent)
    (d : HTLCCreatedEvent) (h : decodeHTLCCreatedEvent e = some d) :
    d.nullifier = e.keys.get? 1 ∧ d.hash_lock = e.data.get? 0 ∧
      ∃ s, e.data.get? 1 = some s := by
  simp only [decodeHTLCCreatedEvent] at h
  cases hjs1 : jsBigInt (e.data.get? 1) with
  | none => simp only [hjs1] at h; exact Option.noConfusion h
  | some tl =>
    simp only [hjs1] at h
    cases hjs2 : jsBigInt (e.data.get? 2) with
    | none => simp only [hjs2] at h; exact Option.noConfusion h
    | some ts =>
      simp only [hjs2] at h
      injection h with h2
      refine ⟨by rw [← h2], by rw [← h2], ?_⟩
      cases hd1 : e.data.get? 1 with
      | none => rw [hd1] at hjs1; exact absurd hjs1 (by simp [jsBigInt])
      | some s => exact ⟨s, rfl⟩

theorem decodeWithdrawalEvent_nullifier (e : RawChainEvent)
    (d : WithdrawalEvent) (h : decodeWithdrawalEvent e = some d) :
    d.nullifier = e.keys.get? 1 := by
  simp only [decodeWithdrawalEvent] at h
  cases hjs : jsBigInt (e.data.get? 0) with
  | none => simp only [hjs] at h; exact Option.noConfusion h
  | some ts =>
    simp only [hjs] at h
    injection h with h2
    rw [← h2]

theorem get_zero_isSome_of_get_one (l : List String) (s : String)
    (h : l.get? 1 = some s) : (l.get? 0).isSome = true := by
  cases l with
  | nil => exact absurd h (by simp)
  | cons a t => rfl

/-! ## Claims -/

/-- C1 counterexample: `c1State` already holds the record whose eventId the
deposit event `c1Event` derives, yet processing the block makes a (successful)
relayer delivery call for that event — refuting "no relayer delivery call is
made for that eventId" and "the deduplication check is performed before the
delivery attempt".  The persistence half does hold: no second record is
stored. -/
theorem C1_dedup_counterexample :
    (validateRelayerVariables sampleEnv).isValid = true ∧
    transform sampleEnv trivialOracle c1Block c1State =
      Except.ok (processEvents trivialOracle 1 [c1Event] c1State) ∧
    storeIds c1State = [mkEventId "0xt1" (some 0) "deposit"] ∧
    mkEventId c1Event.transactionHash c1Event.eventIndex "deposit" =
      mkEventId "0xt1" (some 0) "deposit" ∧
    (processEvents trivialOracle 1 [c1Event] c1State).store = c1State.store ∧
    (processEvents trivialOracle 1 [c1Event] c1State).deliveries.map Prod.snd =
      [DeliverOutcome.returned true] := by
  refine ⟨by decide, rfl, by decide, by decide, by decide, by decide⟩

/-- C1 amended: the pre-insert check keeps persistence idempotent — with a
non-throwing store, processing the same event list twice adds nothing on the
second pass and the persisted eventIds stay pairwise distinct — but the
relayer call happens before the deduplication check, so an event whose
eventId is already stored still triggers exactly one delivery call while its
record is not re-inserted. -/
theorem C1_amended_idempotent_persistence (o : TransformOracle) (bn : Int)
    (events : List RawChainEvent) (st : TransformState)
    (hdb : ∀ n, o.dbThrow n = false)
    (hnd : (storeIds st).Nodup) :
    (processEvents o bn events (processEvents o bn events st)).store =
      (processEvents o bn events st).store ∧
    (storeIds (processEvents o bn events st)).Nodup ∧
    (∀ (st2 : TransformState) (e : RawChainEvent) (t : String)
      (sid : Option String) (ed : List (String × JVal)),
      eventPlan e = some (t, sid, ed) →
      mkEventId e.transactionHash e.eventIndex t ∈ storeIds st2 →
      (processEvent o bn st2 e).store = st2.store ∧
      (processEvent o bn st2 e).deliveries.length = st2.deliveries.length + 1) := by
  refine ⟨?_, processEvents_storeIds_nodup o bn events hdb st hnd, ?_⟩
  · refine processEvents_store_noop o bn events hdb _ ?_
    intro e he t sid ed hplan
    exact processEvents_all_planned_present o bn events hdb st e he t sid ed hplan
  · intro st2 e t sid ed hplan hmem
    refine ⟨processEvent_store_mem o bn st2 e t sid ed hdb hplan hmem, ?_⟩
    rw [processEvent_deliveries_plan o bn st2 e t sid ed hplan]
    simp

/-- C1 amended claim, evaluated on concrete data: one pass over the block
persists `c1Event` exactly once, a second pass adds nothing, and for a state
already holding the eventId the event still produces one delivery call with
no new record. -/
theorem C1_amended_witness :
    (processEvents trivialOracle 1 [c1Event]
        (processEvents trivialOracle 1 [c1Event] emptyState)).store =
      (processEvents trivialOracle 1 [c1Event] emptyState).store ∧
    (storeIds (processEvents trivialOracle 1 [c1Event] emptyState)).Nodup ∧
    (processEvent trivialOracle 1 c1State c1Event).store = c1State.store ∧
    (processEvent trivialOracle 1 c1State c1Event).deliveries.length =
      c1State.deliveries.length + 1 := by
  have h := C1_amended_idempotent_persistence trivialOracle 1 [c1Event]
    emptyState (fun _ => rfl) (by decide)
  have h3 := h.2.2 c1State c1Event "deposit" (some "0xc1commitment") c1Ed
    (by decide) (by decide)
  exact ⟨h.1, h.2.1, h3.1, h3.2⟩

/-- C2: an event whose origin is not one of the two pool addresses (after
lowercasing) is skipped with no decode, delivery or persistence effect; an
event with a recognized origin whose topics are empty or whose first topic
matches none of the three selector constants classifies to `none` and is
likewise skipped with the state unchanged. -/
theorem C2_admission_filter (o : TransformOracle) (bn : Int)
    (st : TransformState) (e : RawChainEvent)
    (h : isFromPoolContract e = false ∨ e.keys.head? = none ∨
      ∃ k, e.keys.head? = some k ∧ k ≠ DEPOSIT_EVENT_KEY ∧
        k ≠ HTLC_CREATED_EVENT_KEY ∧ k ≠ WITHDRAWAL_EVENT_KEY) :
    processEvent o bn st e = st ∧
    (isFromPoolContract e = true → getEventType e = none) := by
  rcases h with h | h
  · refine ⟨processEvent_not_pool o bn st e h, ?_⟩
    intro hp
    rw [h] at hp
    exact absurd hp (by simp)
  · have ht := getEventType_none_of_bad_topics e h
    exact ⟨processEvent_no_type o bn st e ht, fun _ => ht⟩

/-- C2, evaluated: `c2Event` comes from the standard pool but has an empty
topics array, so it classifies to `none` and leaves the state untouched. -/
theorem C2_admission_filter_witness :
    processEvent trivialOracle 0 emptyState c2Event = emptyState ∧
    getEventType c2Event = none := by
  have h := C2_admission_filter trivialOracle 0 emptyState c2Event
    (Or.inr (Or.inl rfl))
  exact ⟨h.1, h.2 (by decide)⟩

/-- C3: the htlc_created selector constant is 67 characters long (`0x` plus
65 hex digits) while the deposit and withdrawal selectors are 66 characters
(`0x` plus 64 hex digits); hence an event whose first topic is a 66-character
value can classify as deposit or htlc_redeemed or fail to classify, but never
as htlc_created. -/
theorem C3_htlc_selector_unreachable (e : RawChainEvent)
    (h : ∀ k, e.keys.head? = some k → k.length = 66) :
    HTLC_CREATED_EVENT_KEY.length = 67 ∧
    DEPOSIT_EVENT_KEY.length = 66 ∧
    WITHDRAWAL_EVENT_KEY.length = 66 ∧
    getEventType e ≠ some "htlc_created" ∧
    (getEventType e = some "deposit" ∨ getEventType e = some "htlc_redeemed" ∨
      getEventType e = none) := by
  have hwd : WITHDRAWAL_EVENT_KEY ≠ DEPOSIT_EVENT_KEY := by decide
  have hwh : WITHDRAWAL_EVENT_KEY ≠ HTLC_CREATED_EVENT_KEY := by decide
  refine ⟨by decide, by decide, by decide, ?_, ?_⟩
  · unfold getEventType
    cases hk : e.keys.head? with
    | none => simp
    | some k =>
      have hlen := h k hk
      by_cases h1 : k = DEPOSIT_EVENT_KEY
      · simp [h1]
      · by_cases h2 : k = HTLC_CREATED_EVENT_KEY
        · exfalso
          rw [h2] at hlen
          revert hlen
          decide
        · by_cases h3 : k = WITHDRAWAL_EVENT_KEY
          · subst h3
            simp [hwd, hwh]
          · simp [h1, h2, h3]
  · unfold getEventType
    cases hk : e.keys.head? with
    | none => simp
    | some k =>
      by_cases h1 : k = DEPOSIT_EVENT_KEY
      · simp [h1]
      · by_cases h2 : k = HTLC_CREATED_EVENT_KEY
        · have hlen := h k hk
          exfalso
          rw [h2] at hlen
          revert hlen
          decide
        · by_cases h3 : k = WITHDRAWAL_EVENT_KEY
          · subst h3
            simp [hwd, hwh]
          · simp [h1, h2, h3]

/-- C3, evaluated: `c3Event` carries the 66-character deposit selector as its
first topic and classifies as deposit, not htlc_created. -/
theorem C3_htlc_selector_unreachable_witness :
    getEventType c3Event ≠ some "htlc_created" ∧
    getEventType c3Event = some "deposit" := by
  have h := C3_htlc_selector_unreachable c3Event (by
    intro k hk
    simp only [c3Event, List.head?] at hk
    cases hk
    decide)
  exact ⟨h.2.2.2.1, by decide⟩

/-- C6 counterexample: a deposit event with only one topic (fewer than the
two the claim requires) still decodes successfully — `keys[1]` is merely
`undefined` — so a short topics array does not produce a DecodeError. -/
theorem C6_decode_counterexample :
    c6Event.keys.length < 2 ∧ decodeDepositEvent c6Event ≠ none ∧
    decodeDepositEvent c6Event =
      some ⟨none, JsNum.val 5, 7⟩ := by
  refine ⟨by decide, by decide, by decide⟩

/-- C6 amended: decoding fails exactly when a required `BigInt` field
coercion fails (deposit: `fields[1]`; htlc_created: `fields[1]` or
`fields[2]`; withdrawal: `fields[0]`) — in particular whenever `fields` is
shorter than 2, 3, resp. 1 entries — while a short topics array alone never
fails; on a decode failure the event is skipped with no state change and
processing continues with the next event of the block. -/
theorem C6_amended_decode_failure (e : RawChainEvent) (o : TransformOracle)
    (bn : Int) (st : TransformState) :
    (decodeDepositEvent e = none ↔ jsBigInt (e.data.get? 1) = none) ∧
    (decodeHTLCCreatedEvent e = none ↔
      (jsBigInt (e.data.get? 1) = none ∨ jsBigInt (e.data.get? 2) = none)) ∧
    (decodeWithdrawalEvent e = none ↔ jsBigInt (e.data.get? 0) = none) ∧
    (e.data.length < 2 → decodeDepositEvent e = none) ∧
    (e.data.length < 3 → decodeHTLCCreatedEvent e = none) ∧
    (e.data.length < 1 → decodeWithdrawalEvent e = none) ∧
    (∀ t, getEventType e = some t → decodeForType t e = none →
      processEvent o bn st e = st ∧
      ∀ rest, processEvents o bn (e :: rest) st = processEvents o bn rest st) := by
  have hdep : decodeDepositEvent e = none ↔ jsBigInt (e.data.get? 1) = none := by
    unfold decodeDepositEvent
    cases jsBigInt (e.data.get? 1) <;> simp
  have hhtlc : decodeHTLCCreatedEvent e = none ↔
      (jsBigInt (e.data.get? 1) = none ∨ jsBigInt (e.data.get? 2) = none) := by
    unfold decodeHTLCCreatedEvent
    cases jsBigInt (e.data.get? 1) <;> cases jsBigInt (e.data.get? 2) <;> simp
  have hwd : decodeWithdrawalEvent e = none ↔ jsBigInt (e.data.get? 0) = none := by
    unfold decodeWithdrawalEvent
    cases jsBigInt (e.data.get? 0) <;> simp
  have hget : ∀ n, e.data.length ≤ n → jsBigInt (e.data.get? n) = none := by
    intro n hn
    rw [List.get?_eq_none.mpr hn]
    rfl
  refine ⟨hdep, hhtlc, hwd, ?_, ?_, ?_, ?_⟩
  · intro hlen
    exact hdep.mpr (hget 1 (by omega))
  · intro hlen
    exact hhtlc.mpr (Or.inr (hget 2 (by omega)))
  · intro hlen
    exact hwd.mpr (hget 0 (by omega))
  · intro t ht hd
    refine ⟨processEvent_no_decode o bn st e t ht hd, ?_⟩
    intro rest
    show processEvents o bn rest (processEvent o bn st e) = processEvents o bn rest st
    rw [processEvent_no_decode o bn st e t ht hd]

/-- C6 amended, evaluated: `c6FailEvent` has a single body field, so the
deposit decoder fails and the event is skipped without touching the state. -/
theorem C6_amended_witness :
    decodeDepositEvent c6FailEvent = none ∧
    processEvent trivialOracle 0 emptyState c6FailEvent = emptyState ∧
    processEvents trivialOracle 0 [c6FailEvent] emptyState =
      processEvents trivialOracle 0 [] emptyState := by
  have h := C6_amended_decode_failure c6FailEvent trivialOracle 0 emptyState
  have hskip := h.2.2.2.2.2.2 "deposit" (by decide) (by decide)
  exact ⟨h.2.2.2.1 (by decide), hskip.1, hskip.2 []⟩

/-- C7 counterexample: for the spec's own deposit scenario the delivered
payload's key set is `event_type, chain, transaction_hash, pool_type,
commitment, leaf_index, timestamp` — `leaf_index` (and `timestamp`) lie
outside the claimed exact key set, so the payload does not contain "exactly"
the four fixed keys plus `commitment`. -/
theorem C7_payload_counterexample :
    (processEvent trivialOracle 1 emptyState c7Event).deliveries.map
        (fun pr => pr.1.map Prod.fst) =
      [["event_type", "chain", "transaction_hash", "pool_type",
        "commitment", "leaf_index", "timestamp"]] ∧
    "leaf_index" ∉ (["event_type", "chain", "transaction_hash", "pool_type",
      "commitment"] : List String) := by
  refine ⟨by decide, by decide⟩

/-- C7 amended: the delivered JSON body — `JSON.stringify` omits properties
whose value is `undefined` — contains exactly the four fixed keys
`event_type`, `chain`, `transaction_hash`, `pool_type` followed by the
variant's defined decoded fields: for a deposit `commitment` (present exactly
when the event has a second topic) then `leaf_index` and `timestamp`; for an
htlc_created `nullifier` (when a second topic exists) then `hash_lock`,
`timelock`, `timestamp`; for an htlc_redeemed `nullifier` (when a second
topic exists) then `timestamp`.  Variant-irrelevant or undefined fields are
omitted rather than null-filled. -/
theorem C7_amended_payload_keys (o : TransformOracle) (bn : Int)
    (st : TransformState) (e : RawChainEvent) (t : String)
    (sid : Option String) (ed : List (String × JVal))
    (hplan : eventPlan e = some (t, sid, ed)) :
    (processEvent o bn st e).deliveries.map (fun pr => pr.1) =
      st.deliveries.map (fun pr => pr.1) ++
        [mkSwapEventData t e.transactionHash (determinePoolType e) ed] ∧
    serializedKeys (mkSwapEventData t e.transactionHash (determinePoolType e) ed) =
      "event_type" :: "chain" :: "transaction_hash" :: "pool_type" ::
        serializedKeys ed ∧
    (t = "deposit" → serializedKeys ed =
      (if (e.keys.get? 1).isSome then ["commitment"] else []) ++
        ["leaf_index", "timestamp"]) ∧
    (t = "htlc_created" → serializedKeys ed =
      (if (e.keys.get? 1).isSome then ["nullifier"] else []) ++
        ["hash_lock", "timelock", "timestamp"]) ∧
    (t = "htlc_redeemed" → serializedKeys ed =
      (if (e.keys.get? 1).isSome then ["nullifier"] else []) ++
        ["timestamp"]) := by
  have hdec := (eventPlan_decode e t sid ed hplan).2.2
  refine ⟨?_, serializedKeys_mkSwapEventData t e.transactionHash
    (determinePoolType e) ed, ?_, ?_, ?_⟩
  · rw [processEvent_deliveries_plan o bn st e t sid ed hplan]
    simp
  · rintro rfl
    obtain ⟨d, hdd, hsid, hed⟩ := decodeForType_deposit_elim e sid ed hdec
    rw [hed, serializedKeys_depositEventData,
      decodeDepositEvent_commitment e d hdd]
  · rintro rfl
    obtain ⟨d, hdd, hsid, hed⟩ := decodeForType_htlc_elim e sid ed hdec
    obtain ⟨hn, hh, s, hs⟩ := decodeHTLCCreatedEvent_fields e d hdd
    have h0 : (e.data.get? 0).isSome = true :=
      get_zero_isSome_of_get_one e.data s hs
    rw [hed, serializedKeys_htlcCreatedEventData, hn, hh, if_pos h0]
    simp
  · rintro rfl
    obtain ⟨d, hdd, hsid, hed⟩ := decodeForType_withdrawal_elim e sid ed hdec
    rw [hed, serializedKeys_withdrawalEventData,
      decodeWithdrawalEvent_nullifier e d hdd]

/-- C7 amended, evaluated on the spec's §8 scenario: the serialized deposit
body carries the four fixed keys plus `commitment`, `leaf_index`,
`timestamp`, and in particular `event_type = "deposit"`,
`commitment = "0xCOMMIT"` and `pool_type = "fast"`. -/
theorem C7_amended_payload_keys_witness :
    (processEvent trivialOracle 1 emptyState c7Event).deliveries.map
        (fun pr => pr.1) =
      [mkSwapEventData "deposit" c7Event.transactionHash
        (determinePoolType c7Event) c7Ed] ∧
    serializedKeys (mkSwapEventData "deposit" c7Event.transactionHash
        (determinePoolType c7Event) c7Ed) =
      ["event_type", "chain", "transaction_hash", "pool_type",
        "commitment", "leaf_index", "timestamp"] ∧
    ("event_type", JVal.str "deposit") ∈
      serializedEntries (mkSwapEventData "deposit" c7Event.transactionHash
        (determinePoolType c7Event) c7Ed) ∧
    ("commitment", JVal.str "0xCOMMIT") ∈
      serializedEntries (mkSwapEventData "deposit" c7Event.transactionHash
        (determinePoolType c7Event) c7Ed) ∧
    ("pool_type", JVal.str "fast") ∈
      serializedEntries (mkSwapEventData "deposit" c7Event.transactionHash
        (determinePoolType c7Event) c7Ed) := by
  have h := C7_amended_payload_keys trivialOracle 1 emptyState c7Event
    "deposit" (some "0xCOMMIT") c7Ed (by decide)
  exact ⟨h.1, by decide, by decide, by decide, by decide⟩

/-- C9: block processing fails only on the configuration check — when a
relayer variable is missing it raises the missing-variable list without
looking at any event, and when the configuration is valid it returns the
fold of the per-event step over the whole block in order, each step being a
total function (decode, delivery and persistence failures are absorbed
inside it). -/
theorem C9_config_failure_only (env : RelayerEnv) (o : TransformOracle)
    (bn : Int) (st : TransformState) (events : List RawChainEvent) :
    (transform env o ⟨⟨bn⟩, events⟩ st =
      if (validateRelayerVariables env).isValid then
        Except.ok (processEvents o bn events st)
      else Except.error (validateRelayerVariables env).missingVars) ∧
    ((validateRelayerVariables env).isValid = false →
      ∀ evs : List RawChainEvent,
        transform env o ⟨⟨bn⟩, evs⟩ st =
          Except.error (validateRelayerVariables env).missingVars) ∧
    (∀ (e : RawChainEvent) (rest : List RawChainEvent),
      processEvents o bn (e :: rest) st =
        processEvents o bn rest (processEvent o bn st e)) := by
  refine ⟨rfl, ?_, fun e rest => rfl⟩
  intro h evs
  simp only [transform, h, Bool.false_eq_true, if_false]

/-- C9, evaluated: with both variables unset, processing a block fails with
the missing-variable list whatever its events are. -/
theorem C9_config_failure_only_witness :
    transform c9Env trivialOracle ⟨⟨0⟩, [c1Event]⟩ emptyState =
      Except.error (validateRelayerVariables c9Env).missingVars ∧
    (validateRelayerVariables c9Env).missingVars =
      ["RELAYER_URL", "HMAC_SECRET"] := by
  have h := C9_config_failure_only c9Env trivialOracle 0 emptyState []
  exact ⟨h.2.1 (by decide) [c1Event], by decide⟩

/-- C10: for a 66-character transaction hash the derived eventId
`txHash_eventIndex_eventType` is at least 76 characters long — more than the
66-character width declared for the `event_id` column of `htlc_events`. -/
theorem C10_eventId_exceeds_column (txHash : String) (eventIndex : Option Nat)
    (eventType : String)
    (hTx : txHash.length = 66)
    (hTy : eventType = "deposit" ∨ eventType = "htlc_created" ∨
      eventType = "htlc_redeemed") :
    76 ≤ (mkEventId txHash eventIndex eventType).length ∧
    htlcEventsEventIdMaxLength < (mkEventId txHash eventIndex eventType).length := by
  have hlen : (mkEventId txHash eventIndex eventType).length =
      txHash.length + 1 + (Nat.repr (eventIndex.getD 0)).length + 1 +
        eventType.length := by
    have hu : "_".length = 1 := rfl
    simp [mkEventId, String.length_append, toString, hu]
  have h1 : 1 ≤ (Nat.repr (eventIndex.getD 0)).length :=
    natRepr_length_pos (eventIndex.getD 0)
  have h7 : 7 ≤ eventType.length := by
    rcases hTy with rfl | rfl | rfl <;> decide
  have hmax : htlcEventsEventIdMaxLength = 66 := rfl
  rw [hlen, hTx, hmax]
  omega

/-- C10, evaluated: a 66-character hash with no event index and type
`deposit` yields a 76-character eventId, exceeding the declared 66. -/
theorem C10_eventId_exceeds_column_witness :
    c10TxHash.length = 66 ∧
    76 ≤ (mkEventId c10TxHash none "deposit").length ∧
    htlcEventsEventIdMaxLength < (mkEventId c10TxHash none "deposit").length := by
  have h := C10_eventId_exceeds_column c10TxHash none "deposit" (by decide)
    (Or.inl rfl)
  exact ⟨by decide, h.1, h.2⟩

theorem isAttemptFailure_of_ne (r : AttemptResult)
    (h : r ≠ AttemptResult.okBody true) : isAttemptFailure r = true := by
  cases r with
  | httpError s => rfl
  | exn => rfl
  | okBody b =>
    cases b with
    | false => rfl
    | true => exact absurd rfl h

theorem relayerLoop_blank (hm : String → String → String) (nowAt : Nat → Nat)
    (env : RelayerEnv) (payload : String) (ar : Nat → AttemptResult)
    (h : (isBlank env.relayerUrl || isBlank env.hmacSecret) = true) :
    ∀ fuel attempt,
      relayerLoop hm nowAt env payload ar fuel attempt = (false, []) := by
  intro fuel attempt
  cases fuel with
  | zero => rfl
  | succ f => simp [relayerLoop, h]

theorem relayerLoop_ok_step (hm : String → String → String) (nowAt : Nat → Nat)
    (env : RelayerEnv) (payload : String) (ar : Nat → AttemptResult)
    (fuel attempt : Nat) (hfuel : fuel ≠ 0)
    (hb : (isBlank env.relayerUrl || isBlank env.hmacSecret) = false)
    (hok : ar attempt = AttemptResult.okBody true) :
    relayerLoop hm nowAt env payload ar fuel attempt =
      (true, [RelayerStep.attempt attempt
        (buildRelayerRequest hm (nowAt attempt) (env.relayerUrl.getD "")
          (env.hmacSecret.getD "") payload) timeoutMs]) := by
  cases fuel with
  | zero => exact absurd rfl hfuel
  | succ f => simp [relayerLoop, hb, hok]

theorem relayerLoop_fail_step (hm : String → String → String)
    (nowAt : Nat → Nat) (env : RelayerEnv) (payload : String)
    (ar : Nat → AttemptResult) (fuel attempt : Nat) (hfuel : fuel ≠ 0)
    (hb : (isBlank env.relayerUrl || isBlank env.hmacSecret) = false)
    (hf : isAttemptFailure (ar attempt) = true) :
    relayerLoop hm nowAt env payload ar fuel attempt =
      if attempt == maxRetries then
        (false, [RelayerStep.attempt attempt
          (buildRelayerRequest hm (nowAt attempt) (env.relayerUrl.getD "")
            (env.hmacSecret.getD "") payload) timeoutMs])
      else
        ((relayerLoop hm nowAt env payload ar (fuel - 1) (attempt + 1)).1,
          RelayerStep.attempt attempt
            (buildRelayerRequest hm (nowAt attempt) (env.relayerUrl.getD "")
              (env.hmacSecret.getD "") payload) timeoutMs ::
            RelayerStep.wait retryDelayMs ::
            (relayerLoop hm nowAt env payload ar (fuel - 1) (attempt + 1)).2) := by
  cases fuel with
  | zero => exact absurd rfl hfuel
  | succ f =>
    rcases hx : ar attempt with s | _ | b
    · simp [relayerLoop, hb, hx, Nat.succ_sub_one]
    · simp [relayerLoop, hb, hx, Nat.succ_sub_one]
    · cases b
      · simp [relayerLoop, hb, hx, Nat.succ_sub_one]
      · rw [hx] at hf
        exact absurd hf (by simp [isAttemptFailure])

/-- C4: with valid credentials and a relayer whose every answer is a failure
(e.g. always HTTP 500), the client makes exactly 3 attempts, each bounded by
the 60-second timeout, waits the fixed 5-second delay after each failed
attempt except the last — no backoff, no jitter — and returns failure. -/
theorem C4_retry_policy (hm : String → String → String) (nowAt : Nat → Nat)
    (env : RelayerEnv) (payload : String) (ar : Nat → AttemptResult)
    (hb : (isBlank env.relayerUrl || isBlank env.hmacSecret) = false)
    (hf : ∀ n, isAttemptFailure (ar n) = true) :
    sendEventToRelayer hm nowAt env payload ar =
      (false,
        [RelayerStep.attempt 1
          (buildRelayerRequest hm (nowAt 1) (env.relayerUrl.getD "")
            (env.hmacSecret.getD "") payload) timeoutMs,
         RelayerStep.wait retryDelayMs,
         RelayerStep.attempt 2
          (buildRelayerRequest hm (nowAt 2) (env.relayerUrl.getD "")
            (env.hmacSecret.getD "") payload) timeoutMs,
         RelayerStep.wait retryDelayMs,
         RelayerStep.attempt 3
          (buildRelayerRequest hm (nowAt 3) (env.relayerUrl.getD "")
            (env.hmacSecret.getD "") payload) timeoutMs]) ∧
    maxRetries = 3 ∧ timeoutMs = 60000 ∧ retryDelayMs = 5000 := by
  refine ⟨?_, rfl, rfl, rfl⟩
  show relayerLoop hm nowAt env payload ar 3 1 = _
  rw [relayerLoop_fail_step hm nowAt env payload ar 3 1 (by decide) hb (hf 1),
    if_neg (by decide)]
  simp only [Nat.reduceAdd, Nat.reduceSub]
  rw [relayerLoop_fail_step hm nowAt env payload ar 2 2 (by decide) hb (hf 2),
    if_neg (by decide)]
  simp only [Nat.reduceAdd, Nat.reduceSub]
  rw [relayerLoop_fail_step hm nowAt env payload ar 1 3 (by decide) hb (hf 3),
    if_pos (by decide)]

/-- C4, evaluated: a relayer always answering HTTP 500 produces the trace
attempt-wait-attempt-wait-attempt and a failed outcome. -/
theorem C4_retry_policy_witness :
    sendEventToRelayer constHmac attemptClock sampleEnv "{}" alwaysHttp500 =
      (false,
        [RelayerStep.attempt 1
          (buildRelayerRequest constHmac (attemptClock 1)
            (sampleEnv.relayerUrl.getD "") (sampleEnv.hmacSecret.getD "") "{}")
          timeoutMs,
         RelayerStep.wait retryDelayMs,
         RelayerStep.attempt 2
          (buildRelayerRequest constHmac (attemptClock 2)
            (sampleEnv.relayerUrl.getD "") (sampleEnv.hmacSecret.getD "") "{}")
          timeoutMs,
         RelayerStep.wait retryDelayMs,
         RelayerStep.attempt 3
          (buildRelayerRequest constHmac (attemptClock 3)
            (sampleEnv.relayerUrl.getD "") (sampleEnv.hmacSecret.getD "") "{}")
          timeoutMs]) ∧
    maxRetries = 3 ∧ timeoutMs = 60000 ∧ retryDelayMs = 5000 :=
  C4_retry_policy constHmac attemptClock sampleEnv "{}" alwaysHttp500
    (by decide) (fun _ => rfl)

/-- C5: delivery succeeds exactly when one of the three attempts observes a
2xx response whose body reports success (a non-2xx response, an exception
and a `success: false` body all being failures), and blank credentials make
it return failure immediately with no attempt and no delay. -/
theorem C5_delivery_outcome (hm : String → String → String) (nowAt : Nat → Nat)
    (env : RelayerEnv) (payload : String) (ar : Nat → AttemptResult) :
    ((isBlank env.relayerUrl || isBlank env.hmacSecret) = true →
      sendEventToRelayer hm nowAt env payload ar = (false, [])) ∧
    ((sendEventToRelayer hm nowAt env payload ar).1 = true ↔
      ((isBlank env.relayerUrl || isBlank env.hmacSecret) = false ∧
        (ar 1 = AttemptResult.okBody true ∨ ar 2 = AttemptResult.okBody true ∨
          ar 3 = AttemptResult.okBody true))) := by
  constructor
  · intro h
    exact relayerLoop_blank hm nowAt env payload ar h maxRetries 1
  · by_cases hb : (isBlank env.relayerUrl || isBlank env.hmacSecret) = true
    · rw [show sendEventToRelayer hm nowAt env payload ar =
        relayerLoop hm nowAt env payload ar maxRetries 1 from rfl,
        relayerLoop_blank hm nowAt env payload ar hb maxRetries 1]
      simp [hb]
    · have hb' : (isBlank env.relayerUrl || isBlank env.hmacSecret) = false := by
        revert hb
        cases isBlank env.relayerUrl || isBlank env.hmacSecret <;> simp
      show (relayerLoop hm nowAt env payload ar 3 1).1 = true ↔ _
      by_cases k1 : ar 1 = AttemptResult.okBody true
      · rw [relayerLoop_ok_step hm nowAt env payload ar 3 1 (by decide) hb' k1]
        simp [hb', k1]
      · rw [relayerLoop_fail_step hm nowAt env payload ar 3 1 (by decide) hb'
          (isAttemptFailure_of_ne _ k1), if_neg (by decide)]
        simp only [Nat.reduceAdd, Nat.reduceSub]
        by_cases k2 : ar 2 = AttemptResult.okBody true
        · rw [relayerLoop_ok_step hm nowAt env payload ar 2 2 (by decide) hb' k2]
          simp [hb', k2]
        · rw [relayerLoop_fail_step hm nowAt env payload ar 2 2 (by decide) hb'
            (isAttemptFailure_of_ne _ k2), if_neg (by decide)]
          simp only [Nat.reduceAdd, Nat.reduceSub]
          by_cases k3 : ar 3 = AttemptResult.okBody true
          · rw [relayerLoop_ok_step hm nowAt env payload ar 1 3 (by decide) hb' k3]
            simp [hb', k3]
          · rw [relayerLoop_fail_step hm nowAt env payload ar 1 3 (by decide) hb'
              (isAttemptFailure_of_ne _ k3), if_pos (by decide)]
            simp [hb', k1, k2, k3]

/-- C5, evaluated: a missing URL yields immediate failure with an empty
trace; a relayer failing twice then answering `success: true` yields a
delivered outcome. -/
theorem C5_delivery_outcome_witness :
    sendEventToRelayer constHmac attemptClock c5Env "{}" alwaysHttp500 =
      (false, []) ∧
    (sendEventToRelayer constHmac attemptClock sampleEnv "{}" failFailOk).1 =
      true := by
  refine ⟨(C5_delivery_outcome constHmac attemptClock c5Env "{}"
    alwaysHttp500).1 (by decide), ?_⟩
  exact (C5_delivery_outcome constHmac attemptClock sampleEnv "{}"
    failFailOk).2.mpr ⟨by decide, Or.inr (Or.inr (by decide))⟩

/-- C8: each attempt signs the payload with
HMAC-SHA256(secret, timestamp ++ payload) where the timestamp is the current
Unix time in seconds rendered as a string, and sends the timestamp and hex
signature in the `x-timestamp`/`x-signature` headers with the JSON payload as
the body under `Content-Type: application/json`. -/
theorem C8_request_signing (hm : String → String → String) (nowMs : Nat)
    (url secret payload : String) :
    (buildRelayerRequest hm nowMs url secret payload).headers =
      [("Content-Type", "application/json"),
       ("x-timestamp", toString (nowMs / 1000)),
       ("x-signature",
         createHMACSignature hm payload secret (toString (nowMs / 1000)))] ∧
    createHMACSignature hm payload secret (toString (nowMs / 1000)) =
      hm secret (toString (nowMs / 1000) ++ payload) ∧
    (buildRelayerRequest hm nowMs url secret payload).body = payload ∧
    (buildRelayerRequest hm nowMs url secret payload).method = "POST" ∧
    (buildRelayerRequest hm nowMs url secret payload).url =
      url ++ "/indexer/event" :=
  ⟨rfl, rfl, rfl, rfl, rfl⟩

end StarknetIndexer
